import Mathlib

/-!
Shallow embedding of the `CircularBuffer` class from `pype/misc.py`.

The buffer is modelled one-dimensionally along its circular axis: the
storage is a `List Int` of fixed length `C` (the physical capacity along
the circular axis), and the two cursors `nsWritten`/`nsRead` are Lean
`Int`s mirroring the unbounded Python integers.  Python exceptions become
an `Option BufErr` (or `Except BufErr`) component of the result; since a
raised Python exception leaves all mutations made before the `raise` in
place, every operation returns the state as it is at the moment of the
raise, paired with the error.
-/

namespace CircularBuffer

/-- The distinct error conditions raised by the buffer, one per `raise`
site in the source. -/
inductive BufErr where
  /-- `IndexError('Cannot rewind past 0')` in the cursor setters. -/
  | rewindPastZero
  /-- `IndexError('Cannot fast forward')` in the cursor setters. -/
  | fastForward
  /-- `IndexError('Cannot rewind past the (circular) buffer size')`. -/
  | rewindPastCapacity
  /-- `IndexError('Cannot write before 0')`. -/
  | writeBeforeZero
  /-- `IndexError('Cannot skip and write ...')`. -/
  | skipWrite
  /-- `IndexError('Cannot write before last read sample ...')`. -/
  | writeBeforeRead
  /-- `IndexError('Cannot read less negative number of samples')`. -/
  | readNegative
  /-- `IndexError('Cannot read past (circular) buffer size')`. -/
  | readPastCapacity
  /-- `IndexError('Cannot read past last written sample')`. -/
  | readPastWrite
  /-- `BufferError('Circular buffer overflow occured ...')`. -/
  | overflow
  deriving DecidableEq, Repr

/-- The observable state of a `CircularBuffer`, restricted to its circular
axis: `data` is the physical storage (length = capacity `C`),
`allowOverflow` the policy flag, and the two fields back the `nsWritten`
and `nsRead` properties. -/
structure CB where
  data : List Int
  allowOverflow : Bool
  nsWritten : Int
  nsRead : Int
  deriving DecidableEq, Repr

/-- `self._data.shape[self._axis]`: the physical capacity `C` along the
circular axis. -/
def CB.cap (b : CB) : Int := b.data.length

/-- `CircularBuffer.__init__`: zeroed storage of capacity `C`, both
cursors at 0. -/
def init (C : Nat) (allowOverflow : Bool) : CB :=
  { data := List.replicate C 0
    allowOverflow := allowOverflow
    nsWritten := 0
    nsRead := 0 }

/-- The fancy-indexed assignment `self._data[window] = data` where
`window` comes from `_getWindow(np.arange(wpos, wpos + n))`: positions
`(wpos + k) % C` for `k = 0, …, n-1` are assigned `data[k]` in order
(later assignments win on a collision, as in numpy).  The modulus is the
fixed capacity `C`, taken as an explicit argument because
`List.set` preserves the length anyway. -/
def setRange (C : Int) (wpos : Int) (data : List Int) (st : List Int) (n : Nat) : List Int :=
  (List.range n).foldl (fun s k => s.set ((wpos + ((k : Nat) : Int)) % C).toNat (data.getD k 0)) st

/-- Storage contents after `self._data[window] = data` in `write`. -/
def writeStorage (st : List Int) (wpos : Int) (data : List Int) : List Int :=
  setRange st.length wpos data st data.length

/-- `CircularBuffer._checkOverflow`: if `nsRead < nsWritten - C`, either
clamp `nsRead` forward to `nsWritten - C` (`allowOverflow`) or raise
`BufferError`. -/
def checkOverflow (b : CB) : CB × Option BufErr :=
  if b.nsRead < b.nsWritten - b.cap then
    if b.allowOverflow then
      ({ b with nsRead := b.nsWritten - b.cap }, none)
    else
      (b, some .overflow)
  else
    (b, none)

/-- Resolution of the `at` argument of `write`: `None` defaults to the
write cursor, and a negative value is replaced by `nsWritten - at`
(the line carrying the `TODO: shouldn't this be '+ at'?` comment). -/
def resolveWriteAt (b : CB) (at? : Option Int) : Int :=
  let a := at?.getD b.nsWritten
  if a < 0 then b.nsWritten - a else a

/-- `CircularBuffer.write`: resolve `at`, run the three validation
checks, copy the data circularly, set `nsWritten := at + n`, then run the
overflow check.  The overflow check comes *after* the mutations, so its
error leaves the new storage and cursor in place. -/
def write (b : CB) (data : List Int) (at? : Option Int) : CB × Option BufErr :=
  let a := resolveWriteAt b at?
  if a < 0 then (b, some .writeBeforeZero)
  else if b.nsWritten < a then (b, some .skipWrite)
  else if a < b.nsRead then (b, some .writeBeforeRead)
  else
    let b1 : CB := { b with
      data := writeStorage b.data a data
      nsWritten := a + data.length }
    checkOverflow b1

/-- Resolution of the `frm` argument of `read`: `None` defaults to the
raw `_nsRead` field (no overflow check is run). -/
def readStart (b : CB) (frm? : Option Int) : Int := frm?.getD b.nsRead

/-- Resolution of the `to` argument of `read` against the write-cursor
snapshot: `None` defaults to the snapshot, and a negative value is
replaced by `nsWritten - to`. -/
def resolveReadTo (b : CB) (to? : Option Int) : Int :=
  let t := to?.getD b.nsWritten
  if t < 0 then b.nsWritten - t else t

/-- `CircularBuffer.read`: snapshot `nsWritten`, resolve `frm`/`to`, run
the three validation checks, gather `self._data[window]` for indices
`frm, …, to-1` (each mod `C`), and, when `advance`, set `nsRead := to`.
All checks precede every mutation. -/
def read (b : CB) (frm? to? : Option Int) (advance : Bool) :
    CB × Except BufErr (List Int) :=
  let nsW := b.nsWritten
  let frm := readStart b frm?
  let stop := resolveReadTo b to?
  if stop < frm then (b, .error .readNegative)
  else if frm < b.nsWritten - b.cap then (b, .error .readPastCapacity)
  else if nsW < stop then (b, .error .readPastWrite)
  else
    let result := (List.range (stop - frm).toNat).map
      (fun k => b.data.getD ((frm + ((k : Nat) : Int)) % b.cap).toNat 0)
    (if advance then { b with nsRead := stop } else b, .ok result)

/-- The `nsWritten` property setter: only a rewind to `0 ≤ value ≤
nsWritten` is accepted; rewinding below `nsRead` clamps `nsRead` down to
the same value. -/
def setNsWritten (b : CB) (value : Int) : CB × Option BufErr :=
  if value < 0 then (b, some .rewindPastZero)
  else if b.nsWritten < value then (b, some .fastForward)
  else
    let b1 : CB := { b with nsWritten := value }
    let b2 : CB := if value < b1.nsRead then { b1 with nsRead := value } else b1
    (b2, none)

/-- The `nsRead` property setter: only a rewind to `0 ≤ value ≤ nsRead`
with `value ≥ nsWritten - C` is accepted. -/
def setNsRead (b : CB) (value : Int) : CB × Option BufErr :=
  if value < 0 then (b, some .rewindPastZero)
  else if b.nsRead < value then (b, some .fastForward)
  else if value < b.nsWritten - b.cap then (b, some .rewindPastCapacity)
  else ({ b with nsRead := value }, none)

/-- The `nsRead` property getter: runs the overflow check (which may
clamp `_nsRead` forward or raise), then returns the field. -/
def getNsRead (b : CB) : CB × Except BufErr Int :=
  match checkOverflow b with
  | (b1, none) => (b1, .ok b1.nsRead)
  | (b1, some e) => (b1, .error e)

/-- The `nsAvailable` property getter: runs the overflow check, then
returns `nsWritten - nsRead`. -/
def getNsAvailable (b : CB) : CB × Except BufErr Int :=
  match checkOverflow b with
  | (b1, none) => (b1, .ok (b1.nsWritten - b1.nsRead))
  | (b1, some e) => (b1, .error e)

end CircularBuffer

namespace CircularBuffer

/-- Unfolding lemma for `write`. -/
lemma write_eq (b : CB) (data : List Int) (at? : Option Int) :
    write b data at? =
      if resolveWriteAt b at? < 0 then (b, some BufErr.writeBeforeZero)
      else if b.nsWritten < resolveWriteAt b at? then (b, some BufErr.skipWrite)
      else if resolveWriteAt b at? < b.nsRead then (b, some BufErr.writeBeforeRead)
      else checkOverflow { b with
        data := writeStorage b.data (resolveWriteAt b at?) data
        nsWritten := resolveWriteAt b at? + (data.length : Int) } := rfl

/-- Unfolding lemma for `read`. -/
lemma read_eq (b : CB) (frm? to? : Option Int) (advance : Bool) :
    read b frm? to? advance =
      if resolveReadTo b to? < readStart b frm? then (b, Except.error BufErr.readNegative)
      else if readStart b frm? < b.nsWritten - b.cap then
        (b, Except.error BufErr.readPastCapacity)
      else if b.nsWritten < resolveReadTo b to? then (b, Except.error BufErr.readPastWrite)
      else (if advance then { b with nsRead := resolveReadTo b to? } else b,
        Except.ok ((List.range (resolveReadTo b to? - readStart b frm?).toNat).map
          (fun k => b.data.getD ((readStart b frm? + ((k : Nat) : Int)) % b.cap).toNat 0))) := rfl

/-- Claim C1 (counterexample): with capacity 4, storage `[1,2,3,4]`,
`nsWritten = 4` and `a = -2`, the claim predicts a successful partial
rewrite at position `4 - 2 = 2`; the code instead resolves `at` to
`4 - (-2) = 6` and raises the skip-ahead error, leaving the buffer
untouched. -/
theorem C1_counterexample :
    write { data := [1, 2, 3, 4], allowOverflow := false, nsWritten := 4, nsRead := 0 }
        [9] (some (-2))
      = ({ data := [1, 2, 3, 4], allowOverflow := false, nsWritten := 4, nsRead := 0 },
         some BufErr.skipWrite) := by
  decide

/-- Claim C1 (amended): for every negative `a`, `write` resolves `at` to
`nsWritten - a = nsWritten + |a|`; whenever `0 ≤ nsWritten` this trips the
skip-ahead check, so the call raises the skip-ahead error and leaves the
buffer unchanged. -/
theorem C1_amended_skipWrite (b : CB) (data : List Int) (a : Int)
    (ha : a < 0) (hw : 0 ≤ b.nsWritten) :
    write b data (some a) = (b, some BufErr.skipWrite) := by
  have hres : resolveWriteAt b (some a) = b.nsWritten - a := by
    simp [resolveWriteAt, ha]
  rw [write_eq, hres, if_neg (by omega), if_pos (by omega)]

/-- Claim C1 (witness for the amended theorem). -/
theorem C1_amended_skipWrite_witness :
    write { data := [1, 2, 3, 4], allowOverflow := false, nsWritten := 4, nsRead := 0 }
        [7, 8] (some (-3))
      = ({ data := [1, 2, 3, 4], allowOverflow := false, nsWritten := 4, nsRead := 0 },
         some BufErr.skipWrite) :=
  C1_amended_skipWrite
    { data := [1, 2, 3, 4], allowOverflow := false, nsWritten := 4, nsRead := 0 }
    [7, 8] (-3) (by decide) (by decide)

/-- Claim C3: the failing input.  With storage `[1,2,3,4]`, `nsWritten = 4`
and `to = -1`, the claim (and the function docstring) say the read should
return samples up to logical index `4 - 1 = 3`; the code resolves `to` to
`4 - (-1) = 5` and unconditionally raises the read-past-last-write error. -/
theorem C3_negative_to_always_errors :
    (read { data := [1, 2, 3, 4], allowOverflow := false, nsWritten := 4, nsRead := 0 }
        (some 0) (some (-1)) true
      = ({ data := [1, 2, 3, 4], allowOverflow := false, nsWritten := 4, nsRead := 0 },
         Except.error BufErr.readPastWrite)) ∧
    resolveReadTo { data := [1, 2, 3, 4], allowOverflow := false, nsWritten := 4, nsRead := 0 }
        (some (-1)) = 5 :=
  ⟨rfl, rfl⟩

/-- Claim C7: setting the write cursor succeeds exactly for
`0 ≤ v ≤ nsWritten`, and on success the write cursor becomes `v` while the
read cursor is clamped down to `v` whenever it was above `v`. -/
theorem C7_setNsWritten_spec (b : CB) (v : Int) :
    ((setNsWritten b v).2 = none ↔ 0 ≤ v ∧ v ≤ b.nsWritten) ∧
    (0 ≤ v → v ≤ b.nsWritten →
      (setNsWritten b v).1.nsWritten = v ∧
      (setNsWritten b v).1.nsRead = if v < b.nsRead then v else b.nsRead) := by
  unfold setNsWritten
  constructor
  · split
    · simp; omega
    · split
      · simp; omega
      · simp; omega
  · intro h0 h1
    rw [if_neg (by omega), if_neg (by omega)]
    by_cases hv : v < b.nsRead <;> simp [hv]

/-- Claim C7 (witness). -/
theorem C7_setNsWritten_spec_witness :
    ((setNsWritten { data := [0, 0, 0, 0], allowOverflow := false, nsWritten := 5, nsRead := 4 } 2).2 = none ↔ 0 ≤ (2 : Int) ∧ (2 : Int) ≤ ({ data := [0, 0, 0, 0], allowOverflow := false, nsWritten := 5, nsRead := 4 } : CB).nsWritten) ∧
    (0 ≤ (2 : Int) → (2 : Int) ≤ ({ data := [0, 0, 0, 0], allowOverflow := false, nsWritten := 5, nsRead := 4 } : CB).nsWritten →
      (setNsWritten { data := [0, 0, 0, 0], allowOverflow := false, nsWritten := 5, nsRead := 4 } 2).1.nsWritten = 2 ∧
      (setNsWritten { data := [0, 0, 0, 0], allowOverflow := false, nsWritten := 5, nsRead := 4 } 2).1.nsRead = if (2 : Int) < ({ data := [0, 0, 0, 0], allowOverflow := false, nsWritten := 5, nsRead := 4 } : CB).nsRead then 2 else ({ data := [0, 0, 0, 0], allowOverflow := false, nsWritten := 5, nsRead := 4 } : CB).nsRead) :=
  C7_setNsWritten_spec { data := [0, 0, 0, 0], allowOverflow := false, nsWritten := 5, nsRead := 4 } 2

/-- Claim C8: rewinding the read cursor strictly below `nsWritten - C`
raises an error, while rewinding it exactly to `nsWritten - C` succeeds
provided the value is also nonnegative and not above the current read
cursor. -/
theorem C8_setNsRead_boundary (b : CB) (v : Int) :
    (v < b.nsWritten - b.cap → (setNsRead b v).2 ≠ none) ∧
    (0 ≤ v → v ≤ b.nsRead → v = b.nsWritten - b.cap →
      (setNsRead b v).2 = none ∧ (setNsRead b v).1.nsRead = v) := by
  unfold setNsRead
  constructor
  · intro hlt
    split
    · simp
    split
    · simp
    · simp
  · intro h0 h1 h2
    rw [if_neg (by omega), if_neg (by omega), if_neg (by omega)]
    exact ⟨rfl, rfl⟩

/-- Claim C8 (witness). -/
theorem C8_setNsRead_boundary_witness :
    (setNsRead { data := [0, 0, 0, 0], allowOverflow := false, nsWritten := 6, nsRead := 3 } (-1)).2 ≠ none ∧
    ((setNsRead { data := [0, 0, 0, 0], allowOverflow := false, nsWritten := 6, nsRead := 3 } 2).2 = none ∧
      (setNsRead { data := [0, 0, 0, 0], allowOverflow := false, nsWritten := 6, nsRead := 3 } 2).1.nsRead = 2) :=
  ⟨(C8_setNsRead_boundary { data := [0, 0, 0, 0], allowOverflow := false, nsWritten := 6, nsRead := 3 } (-1)).1 (by decide),
   (C8_setNsRead_boundary { data := [0, 0, 0, 0], allowOverflow := false, nsWritten := 6, nsRead := 3 } 2).2 (by decide) (by decide) (by decide)⟩

/-- If the overflow check raises, it does not modify the state (the clamp
happens only on the `allowOverflow` branch, which raises nothing). -/
lemma checkOverflow_fst_of_error (b : CB) (e : BufErr)
    (h : (checkOverflow b).2 = some e) : (checkOverflow b).1 = b := by
  unfold checkOverflow at h ⊢
  by_cases h1 : b.nsRead < b.nsWritten - b.cap
  · rw [if_pos h1] at h ⊢
    by_cases h2 : b.allowOverflow = true
    · rw [if_pos h2] at h; simp at h
    · rw [if_neg h2]
  · rw [if_neg h1]

/-- Claim C9: after a successful `read` with `advance = True`, a second
read with default `frm` starts exactly at the resolved `to` of the first
read (no gap, no duplication). -/
theorem C9_consecutive_reads (b : CB) (frm? to? : Option Int) (xs : List Int)
    (h : (read b frm? to? true).2 = Except.ok xs) :
    readStart (read b frm? to? true).1 none = resolveReadTo b to? := by
  rw [read_eq] at h ⊢
  by_cases h1 : resolveReadTo b to? < readStart b frm?
  · rw [if_pos h1] at h; exact absurd h (by simp)
  rw [if_neg h1] at h ⊢
  by_cases h2 : readStart b frm? < b.nsWritten - b.cap
  · rw [if_pos h2] at h; exact absurd h (by simp)
  rw [if_neg h2] at h ⊢
  by_cases h3 : b.nsWritten < resolveReadTo b to?
  · rw [if_pos h3] at h; exact absurd h (by simp)
  rw [if_neg h3]
  rfl

/-- Claim C9 (witness). -/
theorem C9_consecutive_reads_witness :
    readStart (read { data := [1, 2, 3, 0], allowOverflow := false, nsWritten := 3, nsRead := 0 } none (some 2) true).1 none
      = resolveReadTo { data := [1, 2, 3, 0], allowOverflow := false, nsWritten := 3, nsRead := 0 } (some 2) :=
  C9_consecutive_reads { data := [1, 2, 3, 0], allowOverflow := false, nsWritten := 3, nsRead := 0 }
    none (some 2) [1, 2] rfl

/-- Claim C10: in an overflowed state (raw read cursor strictly below
`nsWritten - C`) under the auto-discard policy, `read()` with default
`frm` raises the read-past-capacity error (and changes nothing) because it
uses the raw `_nsRead` field; the clamp happens only through the `nsRead`
accessor, which returns `nsWritten - C` after clamping. -/
theorem C10_read_overflowed_raises (b : CB) (hao : b.allowOverflow = true)
    (h0 : 0 ≤ b.nsRead) (hov : b.nsRead < b.nsWritten - b.cap) :
    read b none none true = (b, Except.error BufErr.readPastCapacity) ∧
    getNsRead b = ({ b with nsRead := b.nsWritten - b.cap }, Except.ok (b.nsWritten - b.cap)) := by
  have hcap : (0 : Int) ≤ b.cap := Int.natCast_nonneg _
  have hstop : resolveReadTo b none = b.nsWritten := by
    unfold resolveReadTo
    simp only [Option.getD_none]
    rw [if_neg (by omega)]
  have hfrm : readStart b none = b.nsRead := rfl
  constructor
  · rw [read_eq, hstop, hfrm, if_neg (by omega), if_pos (by omega)]
  · have hc : checkOverflow b = ({ b with nsRead := b.nsWritten - b.cap }, none) := by
      unfold checkOverflow
      rw [if_pos hov, hao]
      simp
    unfold getNsRead
    rw [hc]

/-- Claim C10 (witness). -/
theorem C10_read_overflowed_raises_witness :
    read { data := [0, 0, 0, 0], allowOverflow := true, nsWritten := 10, nsRead := 0 } none none true
      = ({ data := [0, 0, 0, 0], allowOverflow := true, nsWritten := 10, nsRead := 0 },
         Except.error BufErr.readPastCapacity) ∧
    getNsRead { data := [0, 0, 0, 0], allowOverflow := true, nsWritten := 10, nsRead := 0 }
      = ({ data := [0, 0, 0, 0], allowOverflow := true, nsWritten := 10, nsRead := 6 },
         Except.ok 6) :=
  C10_read_overflowed_raises
    { data := [0, 0, 0, 0], allowOverflow := true, nsWritten := 10, nsRead := 0 }
    (by decide) (by decide) (by decide)

/-- Claim C2 (counterexample): with capacity 4 and the strict policy,
writing 5 samples into the fresh buffer raises the overflow error, yet
afterwards `nsWritten = 5` and the storage holds the written data — the
call has a partial (in fact complete) effect, contradicting the claim
that an erroring call leaves the state exactly as before. -/
theorem C2_counterexample :
    (write (init 4 false) [1, 2, 3, 4, 5] none).2 = some BufErr.overflow ∧
    (write (init 4 false) [1, 2, 3, 4, 5] none).1 ≠ init 4 false := by
  decide

/-- Claim C2 (amended): every *validation* error of `write` (before
start, skip ahead, before last read) and every error of `read` leaves the
buffer exactly as it was; the strict-policy overflow error of `write`,
however, is raised only after the storage copy and the write-cursor
update, so the erroring call leaves the new storage and
`nsWritten = at + len` in place (only `nsRead` is unchanged). -/
theorem C2_no_partial_effect_except_overflow :
    (∀ (b : CB) (data : List Int) (at? : Option Int) (e : BufErr),
        (write b data at?).2 = some e → e ≠ BufErr.overflow → (write b data at?).1 = b) ∧
    (∀ (b : CB) (frm? to? : Option Int) (advance : Bool) (e : BufErr),
        (read b frm? to? advance).2 = Except.error e → (read b frm? to? advance).1 = b) ∧
    (∀ (b : CB) (data : List Int) (at? : Option Int),
        (write b data at?).2 = some BufErr.overflow →
        (write b data at?).1 = { b with
          data := writeStorage b.data (resolveWriteAt b at?) data
          nsWritten := resolveWriteAt b at? + (data.length : Int) }) := by
  refine ⟨?_, ?_, ?_⟩
  · intro b data at? e he hne
    rw [write_eq] at he ⊢
    by_cases h1 : resolveWriteAt b at? < 0
    · rw [if_pos h1]
    rw [if_neg h1] at he ⊢
    by_cases h2 : b.nsWritten < resolveWriteAt b at?
    · rw [if_pos h2]
    rw [if_neg h2] at he ⊢
    by_cases h3 : resolveWriteAt b at? < b.nsRead
    · rw [if_pos h3]
    rw [if_neg h3] at he
    unfold checkOverflow at he
    by_cases h4 : ({ b with
        data := writeStorage b.data (resolveWriteAt b at?) data
        nsWritten := resolveWriteAt b at? + (data.length : Int) } : CB).nsRead
      < ({ b with
        data := writeStorage b.data (resolveWriteAt b at?) data
        nsWritten := resolveWriteAt b at? + (data.length : Int) } : CB).nsWritten
      - ({ b with
        data := writeStorage b.data (resolveWriteAt b at?) data
        nsWritten := resolveWriteAt b at? + (data.length : Int) } : CB).cap
    · rw [if_pos h4] at he
      by_cases h5 : b.allowOverflow = true
      · rw [if_pos h5] at he; simp at he
      · rw [if_neg h5] at he
        simp at he
        exact absurd he.symm hne
    · rw [if_neg h4] at he; simp at he
  · intro b frm? to? advance e he
    rw [read_eq] at he ⊢
    by_cases h1 : resolveReadTo b to? < readStart b frm?
    · rw [if_pos h1]
    rw [if_neg h1] at he ⊢
    by_cases h2 : readStart b frm? < b.nsWritten - b.cap
    · rw [if_pos h2]
    rw [if_neg h2] at he ⊢
    by_cases h3 : b.nsWritten < resolveReadTo b to?
    · rw [if_pos h3]
    rw [if_neg h3] at he
    simp at he
  · intro b data at? he
    rw [write_eq] at he ⊢
    by_cases h1 : resolveWriteAt b at? < 0
    · rw [if_pos h1] at he; simp at he
    rw [if_neg h1] at he ⊢
    by_cases h2 : b.nsWritten < resolveWriteAt b at?
    · rw [if_pos h2] at he; simp at he
    rw [if_neg h2] at he ⊢
    by_cases h3 : resolveWriteAt b at? < b.nsRead
    · rw [if_pos h3] at he; simp at he
    rw [if_neg h3] at he ⊢
    exact checkOverflow_fst_of_error _ _ he

/-- Claim C2 (witness for the amended theorem). -/
theorem C2_no_partial_effect_except_overflow_witness :
    (write (init 4 false) [9] (some 1)).1 = init 4 false ∧
    (read (init 4 false) (some 0) (some 1) true).1 = init 4 false ∧
    (write (init 4 false) [1, 2, 3, 4, 5] (some 0)).1 = { (init 4 false) with
      data := writeStorage (init 4 false).data (resolveWriteAt (init 4 false) (some 0)) [1, 2, 3, 4, 5]
      nsWritten := resolveWriteAt (init 4 false) (some 0) + (([1, 2, 3, 4, 5] : List Int).length : Int) } :=
  ⟨C2_no_partial_effect_except_overflow.1 (init 4 false) [9] (some 1) BufErr.skipWrite
      (by decide) (by decide),
   C2_no_partial_effect_except_overflow.2.1 (init 4 false) (some 0) (some 1) true
      BufErr.readPastWrite rfl,
   C2_no_partial_effect_except_overflow.2.2 (init 4 false) [1, 2, 3, 4, 5] (some 0) (by decide)⟩

/-- The cursor invariant of the buffer: `0 ≤ nsRead ≤ nsWritten`. -/
def Inv (b : CB) : Prop := 0 ≤ b.nsRead ∧ b.nsRead ≤ b.nsWritten

/-- The overflow check preserves the cursor invariant: the auto-discard
clamp moves `nsRead` to `nsWritten - C`, which lies between the old
`nsRead` and `nsWritten`. -/
lemma inv_checkOverflow (b : CB) (h : Inv b) : Inv (checkOverflow b).1 := by
  obtain ⟨ha, hb⟩ := h
  have hcap : (0 : Int) ≤ b.cap := Int.natCast_nonneg _
  unfold checkOverflow
  by_cases h1 : b.nsRead < b.nsWritten - b.cap
  · rw [if_pos h1]
    by_cases h2 : b.allowOverflow = true
    · rw [if_pos h2]
      refine ⟨?_, ?_⟩ <;> dsimp only <;> omega
    · rw [if_neg h2]; exact ⟨ha, hb⟩
  · rw [if_neg h1]; exact ⟨ha, hb⟩

/-- A resolved `to` argument is never negative (given a nonnegative write
cursor): a nonnegative `to` stays itself and a negative `to` is replaced
by `nsWritten - to > nsWritten ≥ 0`. -/
lemma resolveReadTo_nonneg (b : CB) (to? : Option Int) (hb : 0 ≤ b.nsWritten) :
    0 ≤ resolveReadTo b to? := by
  unfold resolveReadTo
  cases to? with
  | none => simp only [Option.getD_none]; split <;> omega
  | some t => simp only [Option.getD_some]; split <;> omega

/-- Unfolding lemma for the `nsWritten` setter. -/
lemma setNsWritten_eq (b : CB) (v : Int) :
    setNsWritten b v =
      if v < 0 then (b, some BufErr.rewindPastZero)
      else if b.nsWritten < v then (b, some BufErr.fastForward)
      else (if v < b.nsRead then { b with nsWritten := v, nsRead := v }
        else { b with nsWritten := v }, none) := rfl

/-- Claim C6: the invariant `0 ≤ nsRead ≤ nsWritten` holds initially and
is preserved by the completed state of every operation: `write`, `read`
(with either advance value), the `nsWritten` setter, the `nsRead` setter,
and the overflow check. -/
theorem C6_invariant_preserved :
    (∀ (C : Nat) (ao : Bool), Inv (init C ao)) ∧
    (∀ (b : CB) (data : List Int) (at? : Option Int), Inv b → Inv (write b data at?).1) ∧
    (∀ (b : CB) (frm? to? : Option Int) (advance : Bool), Inv b → Inv (read b frm? to? advance).1) ∧
    (∀ (b : CB) (v : Int), Inv b → Inv (setNsWritten b v).1) ∧
    (∀ (b : CB) (v : Int), Inv b → Inv (setNsRead b v).1) ∧
    (∀ (b : CB), Inv b → Inv (checkOverflow b).1) := by
  refine ⟨?_, ?_, ?_, ?_, ?_, inv_checkOverflow⟩
  · intro C ao
    exact ⟨le_refl 0, le_refl 0⟩
  · intro b data at? h
    obtain ⟨ha, hb⟩ := h
    rw [write_eq]
    by_cases h1 : resolveWriteAt b at? < 0
    · rw [if_pos h1]; exact ⟨ha, hb⟩
    rw [if_neg h1]
    by_cases h2 : b.nsWritten < resolveWriteAt b at?
    · rw [if_pos h2]; exact ⟨ha, hb⟩
    rw [if_neg h2]
    by_cases h3 : resolveWriteAt b at? < b.nsRead
    · rw [if_pos h3]; exact ⟨ha, hb⟩
    rw [if_neg h3]
    refine inv_checkOverflow _ ⟨ha, ?_⟩
    dsimp only
    omega
  · intro b frm? to? advance h
    obtain ⟨ha, hb⟩ := h
    rw [read_eq]
    by_cases h1 : resolveReadTo b to? < readStart b frm?
    · rw [if_pos h1]; exact ⟨ha, hb⟩
    rw [if_neg h1]
    by_cases h2 : readStart b frm? < b.nsWritten - b.cap
    · rw [if_pos h2]; exact ⟨ha, hb⟩
    rw [if_neg h2]
    by_cases h3 : b.nsWritten < resolveReadTo b to?
    · rw [if_pos h3]; exact ⟨ha, hb⟩
    rw [if_neg h3]
    cases advance with
    | false => exact ⟨ha, hb⟩
    | true =>
      have hs0 : 0 ≤ resolveReadTo b to? := resolveReadTo_nonneg b to? (le_trans ha hb)
      show Inv { b with nsRead := resolveReadTo b to? }
      refine ⟨?_, ?_⟩ <;> dsimp only <;> omega
  · intro b v h
    obtain ⟨ha, hb⟩ := h
    rw [setNsWritten_eq]
    by_cases h1 : v < 0
    · rw [if_pos h1]; exact ⟨ha, hb⟩
    rw [if_neg h1]
    by_cases h2 : b.nsWritten < v
    · rw [if_pos h2]; exact ⟨ha, hb⟩
    rw [if_neg h2]
    by_cases h3 : v < b.nsRead
    · rw [if_pos h3]
      refine ⟨?_, ?_⟩ <;> dsimp only <;> omega
    · rw [if_neg h3]
      refine ⟨?_, ?_⟩ <;> dsimp only <;> omega
  · intro b v h
    obtain ⟨ha, hb⟩ := h
    unfold setNsRead
    by_cases h1 : v < 0
    · rw [if_pos h1]; exact ⟨ha, hb⟩
    rw [if_neg h1]
    by_cases h2 : b.nsRead < v
    · rw [if_pos h2]; exact ⟨ha, hb⟩
    rw [if_neg h2]
    by_cases h3 : v < b.nsWritten - b.cap
    · rw [if_pos h3]; exact ⟨ha, hb⟩
    rw [if_neg h3]
    refine ⟨?_, ?_⟩ <;> dsimp only <;> omega

/-- Claim C6 (witness). -/
theorem C6_invariant_preserved_witness :
    Inv (init 4 false) ∧
    Inv (write (init 4 true) [1, 2, 3, 4, 5, 6] (some 0)).1 ∧
    Inv (read { data := [1, 2, 3, 4], allowOverflow := false, nsWritten := 4, nsRead := 0 } none none true).1 ∧
    Inv (setNsWritten { data := [1, 2, 3, 4], allowOverflow := false, nsWritten := 4, nsRead := 3 } 1).1 ∧
    Inv (setNsRead { data := [1, 2, 3, 4], allowOverflow := false, nsWritten := 4, nsRead := 3 } 2).1 ∧
    Inv (checkOverflow { data := [1, 2, 3, 4], allowOverflow := true, nsWritten := 9, nsRead := 1 }).1 :=
  ⟨C6_invariant_preserved.1 4 false,
   C6_invariant_preserved.2.1 (init 4 true) [1, 2, 3, 4, 5, 6] (some 0) (by exact ⟨le_refl 0, le_refl 0⟩),
   C6_invariant_preserved.2.2.1 _ none none true (by exact ⟨by decide, by decide⟩),
   C6_invariant_preserved.2.2.2.1 _ 1 (by exact ⟨by decide, by decide⟩),
   C6_invariant_preserved.2.2.2.2.1 _ 2 (by exact ⟨by decide, by decide⟩),
   C6_invariant_preserved.2.2.2.2.2 _ (by exact ⟨by decide, by decide⟩)⟩

/-- `List.set` preserves length, so does the circular bulk assignment. -/
lemma setRange_succ (C wpos : Int) (data st : List Int) (m : Nat) :
    setRange C wpos data st (m + 1)
      = (setRange C wpos data st m).set ((wpos + ((m : Nat) : Int)) % C).toNat (data.getD m 0) := by
  unfold setRange
  rw [List.range_succ, List.foldl_append]
  rfl

/-- The circular bulk assignment preserves the storage length. -/
lemma setRange_length (C wpos : Int) (data st : List Int) (n : Nat) :
    (setRange C wpos data st n).length = st.length := by
  induction n with
  | zero => rfl
  | succ m ih => rw [setRange_succ, List.length_set, ih]

/-- `writeStorage` preserves the storage length. -/
lemma writeStorage_length (st : List Int) (wpos : Int) (data : List Int) :
    (writeStorage st wpos data).length = st.length :=
  setRange_length _ _ _ _ _

/-- Claim C4: for a contiguous write (default `at`) from a state with
`0 ≤ nsRead ≤ nsWritten`, under the strict policy the overflow error is
raised exactly when the new gap `nsWritten + len - nsRead` exceeds the
capacity `C` (no error at gap = `C`), and under the auto-discard policy
no error is ever raised and the read cursor is clamped forward to the new
`nsWritten - C` exactly when that gap exceeds `C`. -/
theorem C4_overflow_boundary (b : CB) (data : List Int)
    (h0 : 0 ≤ b.nsRead) (h1 : b.nsRead ≤ b.nsWritten) :
    (b.allowOverflow = false →
      (((write b data none).2 = some BufErr.overflow) ↔
        b.cap < b.nsWritten + (data.length : Int) - b.nsRead) ∧
      (((write b data none).2 = none) ↔
        b.nsWritten + (data.length : Int) - b.nsRead ≤ b.cap)) ∧
    (b.allowOverflow = true →
      (write b data none).2 = none ∧
      (write b data none).1.nsRead =
        (if b.cap < b.nsWritten + (data.length : Int) - b.nsRead
         then b.nsWritten + (data.length : Int) - b.cap
         else b.nsRead)) := by
  have hres : resolveWriteAt b none = b.nsWritten := by
    unfold resolveWriteAt
    simp only [Option.getD_none]
    rw [if_neg (by omega)]
  rw [write_eq, hres, if_neg (by omega), if_neg (by omega), if_neg (by omega)]
  unfold checkOverflow
  have hcap : ({ b with
      data := writeStorage b.data b.nsWritten data
      nsWritten := b.nsWritten + (data.length : Int) } : CB).cap = b.cap := by
    unfold CB.cap
    dsimp only
    rw [writeStorage_length]
  rw [hcap]
  dsimp only
  by_cases hov : b.nsRead < b.nsWritten + (data.length : Int) - b.cap
  · rw [if_pos hov]
    constructor
    · intro hao
      rw [hao]
      rw [if_neg (by simp)]
      constructor
      · dsimp only
        constructor
        · intro _; omega
        · intro _; rfl
      · dsimp only
        constructor
        · intro hx; exact absurd hx (by simp)
        · intro hx; omega
    · intro hao
      rw [hao, if_pos rfl]
      constructor
      · rfl
      · dsimp only
        rw [if_pos (by omega)]
  · rw [if_neg hov]
    constructor
    · intro _
      constructor
      · dsimp only
        constructor
        · intro hx; exact absurd hx (by simp)
        · intro hx; omega
      · dsimp only
        constructor
        · intro _; omega
        · intro _; rfl
    · intro _
      constructor
      · rfl
      · dsimp only
        rw [if_neg (by omega)]

/-- Claim C4 (witness): with capacity 2 and three samples written from
empty, the strict policy raises the overflow error and the auto-discard
policy succeeds. -/
theorem C4_overflow_boundary_witness :
    (write (init 2 false) [1, 2, 3] none).2 = some BufErr.overflow ∧
    (write (init 2 true) [1, 2, 3] none).2 = none :=
  ⟨((C4_overflow_boundary (init 2 false) [1, 2, 3] (by decide) (by decide)).1 rfl).1.mpr
      (by decide),
   ((C4_overflow_boundary (init 2 true) [1, 2, 3] (by decide) (by decide)).2 rfl).1⟩

/-- Reading back position `(wpos + j) % C` after the circular bulk
assignment of `n ≤ C` samples starting at `wpos ≥ 0` yields `data[j]`:
within one capacity the physical indices are pairwise distinct, and the
fold sets each exactly once. -/
lemma setRange_getD (C wpos : Int) (data st : List Int)
    (hC : C = (st.length : Int)) (hw : 0 ≤ wpos) :
    ∀ n : Nat, (n : Int) ≤ C → ∀ j : Nat, j < n →
      (setRange C wpos data st n).getD ((wpos + ((j : Nat) : Int)) % C).toNat 0 = data.getD j 0 := by
  intro n
  induction n with
  | zero => intro _ j hj; exact absurd hj (Nat.not_lt_zero j)
  | succ m ih =>
    intro hn j hj
    have hCpos : (0 : Int) < C := by omega
    rw [setRange_succ]
    have hlen : (setRange C wpos data st m).length = st.length := setRange_length _ _ _ _ _
    rcases Nat.lt_succ_iff_lt_or_eq.mp hj with hjm | hjm
    · have hne : ((wpos + ((m : Nat) : Int)) % C).toNat ≠ ((wpos + ((j : Nat) : Int)) % C).toNat := by
        have hm0 : 0 ≤ (wpos + ((m : Nat) : Int)) % C := Int.emod_nonneg _ (by omega)
        have hj0 : 0 ≤ (wpos + ((j : Nat) : Int)) % C := Int.emod_nonneg _ (by omega)
        intro hteq
        have heq : (wpos + ((m : Nat) : Int)) % C = (wpos + ((j : Nat) : Int)) % C := by omega
        have hdvd : C ∣ (wpos + ((m : Nat) : Int)) - (wpos + ((j : Nat) : Int)) :=
          Int.dvd_of_emod_eq_zero (Int.emod_eq_emod_iff_emod_sub_eq_zero.mp heq)
        have hsub : (wpos + ((m : Nat) : Int)) - (wpos + ((j : Nat) : Int)) = ((m : Nat) : Int) - ((j : Nat) : Int) := by
          ring
        rw [hsub] at hdvd
        have := Int.le_of_dvd (by omega) hdvd
        omega
      rw [List.getD_eq_getElem?_getD, List.getElem?_set_ne hne, ← List.getD_eq_getElem?_getD]
      exact ih (by omega) j hjm
    · subst hjm
      have hlt : ((wpos + ((j : Nat) : Int)) % C).toNat < (setRange C wpos data st j).length := by
        rw [hlen]
        have h2 : (wpos + ((j : Nat) : Int)) % C < C := Int.emod_lt_of_pos _ hCpos
        have h3 : 0 ≤ (wpos + ((j : Nat) : Int)) % C := Int.emod_nonneg _ (by omega)
        omega
      rw [List.getD_eq_getElem?_getD, List.getElem?_set_self hlt]
      rfl

/-- Enumerating a list by `getD` over `range` reproduces the list. -/
lemma map_getD_range (l : List Int) :
    (List.range l.length).map (fun k => l.getD k 0) = l := by
  apply List.ext_getElem
  · simp
  · intro i h1 h2
    simp only [List.getElem_map, List.getElem_range, List.getD_eq_getElem?_getD]
    rw [List.getElem?_eq_getElem h2]
    rfl

/-- Claim C5: the concrete wraparound scenario (capacity 4: write
`[1,2,3,4]` at 0, then `[5,6]` at 4 giving physical storage `[5,6,3,4]`
and `nsWritten = 6`, then `read(frm=2, to=6)` returning `[3,4,5,6]`), and
in general a successful write followed by a read of the same logical
range (before any overwrite) returns the written values. -/
theorem C5_concrete_and_roundtrip :
    (write (init 4 true) [1, 2, 3, 4] (some 0)
        = ({ data := [1, 2, 3, 4], allowOverflow := true, nsWritten := 4, nsRead := 0 }, none) ∧
     write { data := [1, 2, 3, 4], allowOverflow := true, nsWritten := 4, nsRead := 0 } [5, 6] (some 4)
        = ({ data := [5, 6, 3, 4], allowOverflow := true, nsWritten := 6, nsRead := 2 }, none) ∧
     (read { data := [5, 6, 3, 4], allowOverflow := true, nsWritten := 6, nsRead := 2 } (some 2) (some 6) true).2
        = Except.ok [3, 4, 5, 6]) ∧
    (∀ (b : CB) (wpos : Int) (data : List Int),
      0 ≤ wpos → wpos ≤ b.nsWritten → b.nsRead ≤ wpos →
      wpos + (data.length : Int) - b.cap ≤ b.nsRead →
      (write b data (some wpos)).2 = none ∧
      (read (write b data (some wpos)).1 (some wpos) (some (wpos + (data.length : Int))) true).2
        = Except.ok data) := by
  constructor
  · exact ⟨by decide, by decide, rfl⟩
  · intro b wpos data hw hle hre hov
    have hres : resolveWriteAt b (some wpos) = wpos := by
      unfold resolveWriteAt
      simp only [Option.getD_some]
      rw [if_neg (by omega)]
    have hcapge : (0 : Int) ≤ b.cap := Int.natCast_nonneg _
    rw [write_eq, hres, if_neg (by omega), if_neg (by omega), if_neg (by omega)]
    set b1 : CB := { b with
      data := writeStorage b.data wpos data
      nsWritten := wpos + (data.length : Int) } with hb1
    have hcap : b1.cap = b.cap := by
      rw [hb1]
      unfold CB.cap
      dsimp only
      rw [writeStorage_length]
    have hr1 : b1.nsRead = b.nsRead := by rw [hb1]
    have hw1 : b1.nsWritten = wpos + (data.length : Int) := by rw [hb1]
    have hco : checkOverflow b1 = (b1, none) := by
      unfold checkOverflow
      rw [hcap, hr1, hw1, if_neg (by omega)]
    rw [hco]
    refine ⟨rfl, ?_⟩
    have hfrm : readStart b1 (some wpos) = wpos := rfl
    have hstop : resolveReadTo b1 (some (wpos + (data.length : Int)))
        = wpos + (data.length : Int) := by
      unfold resolveReadTo
      simp only [Option.getD_some]
      rw [if_neg (by omega)]
    rw [read_eq, hfrm, hstop, hw1, hcap, if_neg (by omega), if_neg (by omega),
      if_neg (by omega)]
    dsimp only
    refine congrArg Except.ok ?_
    have hnum : (wpos + (data.length : Int) - wpos).toNat = data.length := by omega
    rw [hnum]
    have hdat : b1.data = writeStorage b.data wpos data := by rw [hb1]
    have hcapn : b1.cap = (b.data.length : Int) := hcap
    have hlen2 : (data.length : Int) ≤ (b.data.length : Int) := by
      have hce : b.cap = (b.data.length : Int) := rfl
      omega
    have hce : b.cap = (b.data.length : Int) := rfl
    rw [hce]
    have hmap : ∀ k ∈ List.range data.length,
        (writeStorage b.data wpos data).getD
          ((wpos + ((k : Nat) : Int)) % (b.data.length : Int)).toNat 0 = data.getD k 0 := by
      intro k hk
      rw [List.mem_range] at hk
      exact setRange_getD (b.data.length : Int) wpos data b.data rfl hw data.length hlen2 k hk
    rw [List.map_congr_left hmap, map_getD_range]

/-- Claim C5 (witness for the round-trip part). -/
theorem C5_concrete_and_roundtrip_witness :
    (write (init 4 false) [7, 8] (some 0)).2 = none ∧
    (read (write (init 4 false) [7, 8] (some 0)).1 (some 0)
        (some ((0 : Int) + (([7, 8] : List Int).length : Int))) true).2
      = Except.ok [7, 8] :=
  C5_concrete_and_roundtrip.2 (init 4 false) 0 [7, 8]
    (by decide) (by decide) (by decide) (by decide)
